import Mathlib

/-!
Verification of the go-dmr Homebrew/MMDVM relay core against its
specification.  Byte sequences are modelled as `List Nat` (each entry a
value below 256), Go slices and maps as lists and functions, machine
integers as `Nat` with explicit masking where overflow matters, and
fallible or panicking code as `Option`-valued functions (`none` models a
Go runtime panic).
-/

namespace lc

/-! ### Talker alias codec, from src/lc/talkeralias.go -/

/-- Data format constant `Format7Bit` (iota = 0). -/
def Format7Bit : Nat := 0

/-- Data format constant `FormatISO8Bit` (iota = 1). -/
def FormatISO8Bit : Nat := 1

/-- `TalkerAliasHeaderPDU` from talkeralias.go: data format, length and
payload bytes. -/
structure TalkerAliasHeaderPDU where
  DataFormat : Nat
  Length : Nat
  Data : List Nat
  deriving Repr, DecidableEq

/-- `movebit` from talkeralias.go.  Reads bit `srcBit` of `src[srcByte]`;
if it is set it ORs `1 <<< dstBit` into `dst[dstByte]`, otherwise it ANDs
`dst[dstByte]` with `0 <<< dstBit` (which is `0`, so the whole destination
byte is cleared — translated literally from the source).  Indices are Go
`int`s, so they are modelled as `Int`; an index outside the slice bounds
is a Go runtime panic, modelled as `none`. -/
def movebit (src : List Nat) (srcByte srcBit : Int) (dst : List Nat)
    (dstByte dstBit : Int) : Option (List Nat) :=
  if 0 ≤ srcByte ∧ srcByte < (src.length : Int) then
    let bit := (src.getD srcByte.toNat 0 >>> srcBit.toNat) &&& 1
    if 0 ≤ dstByte ∧ dstByte < (dst.length : Int) then
      if bit ≥ 1 then
        some (dst.set dstByte.toNat
          (dst.getD dstByte.toNat 0 ||| (1 <<< dstBit.toNat)))
      else
        some (dst.set dstByte.toNat
          (dst.getD dstByte.toNat 0 &&& (0 <<< dstBit.toNat)))
    else none
  else none

/-- `ParseTalkerAliasHeaderPDU` from talkeralias.go.  Requires exactly 7
input bytes; for the 7-bit format it runs `movebit` for every bit
position `i` in `[7, 56)` into a zeroed 7-byte buffer, otherwise the
payload is `data[1:6]`. -/
def ParseTalkerAliasHeaderPDU (data : List Nat) : Option TalkerAliasHeaderPDU :=
  if data.length ≠ 7 then none
  else
    let dataFormat := (data.getD 0 0 &&& 0xC0) >>> 6
    let out? : Option (List Nat) :=
      if dataFormat = Format7Bit then
        (List.range' 7 49).foldlM
          (fun acc (i : Nat) => movebit data ((i : Int) / 8) (7 - ((i : Int) % 8))
            acc (((i : Int) - 7) / 7) (6 - ((i : Int) % 7)))
          (List.replicate 7 0)
      else some ((data.drop 1).take 5)
    match out? with
    | none => none
    | some out =>
        some ⟨dataFormat, (data.getD 0 0 &&& 0x3E) >>> 1, out⟩

/-- `TalkerAliasHeaderPDU.Bytes` from talkeralias.go.  For the 7-bit
format it runs the inverse `movebit` loop into a zeroed 6-byte buffer
(the destination byte index is `i/8 - 1`, which is `-1` when `i = 7`),
then prepends the byte assembled from format, length and the reserved
`bit49` (kept zero).  Accessing `out[0] … out[5]` requires at least 6
bytes in `out`; a shorter buffer is a panic (`none`). -/
def TalkerAliasHeaderPDU.Bytes (t : TalkerAliasHeaderPDU) : Option (List Nat) :=
  let bit49 : Nat := 0
  let out? : Option (List Nat) :=
    if t.DataFormat = Format7Bit then
      (List.range' 7 49).foldlM
        (fun acc (i : Nat) => movebit t.Data (((i : Int) - 7) / 7) (6 - ((i : Int) % 7))
          acc ((i : Int) / 8 - 1) (7 - ((i : Int) % 8)))
        (List.replicate 6 0)
    else some t.Data
  match out? with
  | none => none
  | some out =>
      if 6 ≤ out.length then
        some ((((t.DataFormat <<< 6) &&& 0xC0) |||
               ((t.Length <<< 1) &&& 0x3E) ||| (bit49 &&& 1)) ::
              [out.getD 0 0, out.getD 1 0, out.getD 2 0,
               out.getD 3 0, out.getD 4 0, out.getD 5 0])
      else none

end lc

namespace homebrew

/-! ### DMR data frame codec, from src/homebrew/homebrew.go -/

/-- Modelled from the spec: the external `dmr` module's pseudo data-type
constant for voice burst A.  The spec only fixes that bursts A–F are
consecutive ("burst A..F ordering") and distinct from the data-sync slot
types, which are small enumeration values below 16; burst A is therefore
placed at 0x10 with B–F following. -/
def VoiceBurstA : Nat := 0x10

/-- Voice burst B (`VoiceBurstA + 1`). -/
def VoiceBurstB : Nat := 0x11

/-- Voice burst C. -/
def VoiceBurstC : Nat := 0x12

/-- Voice burst D. -/
def VoiceBurstD : Nat := 0x13

/-- Voice burst E. -/
def VoiceBurstE : Nat := 0x14

/-- Voice burst F. -/
def VoiceBurstF : Nat := 0x15

/-- The external `dmr.Packet` structure, with the fields the Homebrew
codec touches.  Machine-integer fields are `Nat`s denoting their Go
values (`Sequence`, `DataType`, `BER`, `RSSI` are `uint8`; `SrcID`,
`DstID`, `RepeaterID`, `StreamID` are `uint32`; `Timeslot` and
`CallType` are single-bit `uint8` flags). -/
structure Packet where
  Sequence : Nat
  SrcID : Nat
  DstID : Nat
  RepeaterID : Nat
  Timeslot : Nat
  CallType : Nat
  StreamID : Nat
  DataType : Nat
  BER : Nat
  RSSI : Nat
  Data : List Nat
  deriving Repr, DecidableEq

/-- The data-type condition of claim C4: a voice burst A–F or a
data-sync enumeration value below 16. -/
def DataTypeOK (dt : Nat) : Prop :=
  (VoiceBurstA ≤ dt ∧ dt ≤ VoiceBurstF) ∨ dt < 16

instance (dt : Nat) : Decidable (DataTypeOK dt) := by
  unfold DataTypeOK
  infer_instance

/-- A valid packet in the sense of claim C4: ids below `2^24`, one-bit
timeslot and call type, 33 payload bytes, burst or data-sync data type,
and the remaining fields within their Go machine-integer ranges. -/
def Packet.Valid (p : Packet) : Prop :=
  p.Sequence < 256 ∧ p.SrcID < 2 ^ 24 ∧ p.DstID < 2 ^ 24 ∧
  p.Timeslot < 2 ∧ p.CallType < 2 ∧ p.StreamID < 2 ^ 32 ∧
  p.BER < 256 ∧ p.RSSI < 256 ∧ p.Data.length = 33 ∧ DataTypeOK p.DataType

instance (p : Packet) : Decidable p.Valid := by
  unfold Packet.Valid
  infer_instance

/-- Byte 15 of the Homebrew DMR frame, as assembled by `buildData`:
`data[15] = ((Timeslot & 0x01) << 7) | ((CallType & 0x01) << 6)`
followed by the `switch` on the data type that ORs in the frame kind
and low nibble. -/
def packedByte (ts ct dt : Nat) : Nat :=
  let base := ((ts &&& 0x01) <<< 7) ||| ((ct &&& 0x01) <<< 6)
  if dt = VoiceBurstB ∨ dt = VoiceBurstC ∨ dt = VoiceBurstD ∨
      dt = VoiceBurstE ∨ dt = VoiceBurstF then
    (base ||| (0x00 <<< 4)) ||| (dt - VoiceBurstA)
  else if dt = VoiceBurstA then
    base ||| (0x01 <<< 4)
  else
    (base ||| (0x02 <<< 4)) ||| dt

/-- `buildData` from homebrew.go: converts a DMR packet to the 55-byte
Homebrew frame.  `copy(data[20:53], p.Data)` copies at most 33 payload
bytes and leaves the zeroed remainder in place; explicit `uint8(...)`
conversions become `% 256`. -/
def buildData (p : Packet) (repeaterID : Nat) : List Nat :=
  [0x44, 0x4D, 0x52, 0x44,
   p.Sequence,
   (p.SrcID >>> 16) % 256, (p.SrcID >>> 8) % 256, p.SrcID % 256,
   (p.DstID >>> 16) % 256, (p.DstID >>> 8) % 256, p.DstID % 256,
   (repeaterID >>> 24) % 256, (repeaterID >>> 16) % 256,
   (repeaterID >>> 8) % 256, repeaterID % 256,
   packedByte p.Timeslot p.CallType p.DataType,
   (p.StreamID >>> 24) % 256, (p.StreamID >>> 16) % 256,
   (p.StreamID >>> 8) % 256, p.StreamID % 256] ++
  (p.Data.take 33 ++ List.replicate (33 - p.Data.length) 0) ++
  [p.BER % 256, p.RSSI % 256]

/-- The `switch (data[15] >> 4) & 0x03` of `parseData`: frame kinds 0
and 1 are voice (burst A plus the low nibble), kind 2 is data sync (the
low nibble itself), kind 3 is the `"unexpected frame type 0b11"`
error. -/
def decodeDataType (b15 : Nat) : Option Nat :=
  match (b15 >>> 4) &&& 0x03 with
  | 0 => some (VoiceBurstA + (b15 &&& 0x0F))
  | 1 => some (VoiceBurstA + (b15 &&& 0x0F))
  | 2 => some (b15 &&& 0x0F)
  | _ => none

/-- `parseData` from homebrew.go: converts a 55-byte Homebrew frame
back to a DMR packet; any other length or a frame kind of `0b11` is an
error (`none`). -/
def parseData (data : List Nat) : Option Packet :=
  if data.length ≠ 55 then none
  else
    match decodeDataType (data.getD 15 0) with
    | none => none
    | some dataType =>
        some {
          Sequence := data.getD 4 0,
          SrcID := (data.getD 5 0) <<< 16 ||| (data.getD 6 0) <<< 8 ||| data.getD 7 0,
          DstID := (data.getD 8 0) <<< 16 ||| (data.getD 9 0) <<< 8 ||| data.getD 10 0,
          RepeaterID := (data.getD 11 0) <<< 24 ||| (data.getD 12 0) <<< 16 |||
            (data.getD 13 0) <<< 8 ||| data.getD 14 0,
          Timeslot := (data.getD 15 0 >>> 7) &&& 0x01,
          CallType := (data.getD 15 0 >>> 6) &&& 0x01,
          StreamID := (data.getD 16 0) <<< 24 ||| (data.getD 17 0) <<< 16 |||
            (data.getD 18 0) <<< 8 ||| data.getD 19 0,
          DataType := dataType,
          BER := data.getD 53 0,
          RSSI := data.getD 54 0,
          Data := (data.drop 20).take 33 }

/-! ### Repeater configuration codec, from src/homebrew/homebrew.go -/

/-- `RepeaterConfiguration`.  The struct declaration itself lives in a
repository file outside src/; modelled from the spec (§3): callsign,
RX/TX frequency, TX power, color code, latitude/longitude, height,
location, description, slots, URL and software/package identifiers,
with the field types taken from their uses in homebrew.go.  String
fields are ASCII byte lists; the float32 `Latitude`/`Longitude` are
carried as opaque bit patterns (`Nat`), their decimal formatting being
abstracted by the parameters of `buildConfigData`. -/
structure RepeaterConfiguration where
  ID : Nat
  Callsign : List Nat
  RXFreq : Nat
  TXFreq : Nat
  TXPower : Nat
  ColorCode : Nat
  Latitude : Nat
  Longitude : Nat
  Height : Nat
  Location : List Nat
  Description : List Nat
  Slots : Nat
  URL : List Nat
  SoftwareID : List Nat
  PackageID : List Nat
  deriving Repr, DecidableEq

/-- Modelled from the spec: the external `dmr` module's nonempty default
software identifier, substituted by `buildConfigData` when the
configuration carries none (the exact text is irrelevant to every
claim; `"go-dmr"` stands in). -/
def dmrSoftwareID : List Nat := [0x67, 0x6F, 0x2D, 0x64, 0x6D, 0x72]

/-- Modelled from the spec: the external `dmr` module's nonempty default
package identifier. -/
def dmrPackageID : List Nat := [0x67, 0x6F, 0x2D, 0x64, 0x6D, 0x72, 0x2A]

/-- ASCII decimal digits of `n`, most significant first (Go `strconv`
formatting of an unsigned integer). -/
def decDigits (n : Nat) : List Nat := (Nat.toDigits 10 n).map Char.toNat

/-- Go `fmt.Sprintf("%0<w>d", n)`: decimal digits left-padded with `'0'`
to width `w` (longer values are kept whole). -/
def padNum (w n : Nat) : List Nat :=
  let s := decDigits n
  List.replicate (w - s.length) 0x30 ++ s

/-- Go `fmt.Sprintf("%-<w>s", s)`: right-padded with spaces to width
`w` (longer values are kept whole). -/
def padStr (w : Nat) (s : List Nat) : List Nat :=
  s ++ List.replicate (w - s.length) 0x20

/-- Go `copy(buf[off:off+w], src)`: overwrites `min w src.length` bytes
of `buf` starting at `off`. -/
def goCopy (buf : List Nat) (off : Nat) (src : List Nat) (w : Nat) : List Nat :=
  let count := min w src.length
  buf.take off ++ src.take count ++ buf.drop (off + count)

/-- `buildConfigData` from homebrew.go.  It first clamps / defaults
fields *on the configuration itself* (`c.ColorCode`, `c.TXPower`,
`c.Slots`, `c.SoftwareID`, `c.PackageID` are written through the
pointer), then assembles the 302-byte `RPTC` frame.  `fmtLat` / `fmtLon`
abstract the `fmt.Sprintf("%-08f", …)` / `"%-09f"` float32 formatting
(outside the embedding); the 8/9-byte truncation that follows them is
kept.  Returns the frame together with the mutated configuration. -/
def buildConfigData (fmtLat fmtLon : Nat → List Nat)
    (c : RepeaterConfiguration) : List Nat × RepeaterConfiguration :=
  let colorCode := if c.ColorCode < 1 then 1 else c.ColorCode
  let colorCode := if colorCode > 15 then 15 else colorCode
  let txPower := if c.TXPower > 99 then 99 else c.TXPower
  let slots := if c.Slots > 4 then 4 else c.Slots
  let softwareID := if c.SoftwareID = [] then dmrSoftwareID else c.SoftwareID
  let packageID := if c.PackageID = [] then dmrPackageID else c.PackageID
  let c := { c with ColorCode := colorCode, TXPower := txPower, Slots := slots,
                    SoftwareID := softwareID, PackageID := packageID }
  let lat := fmtLat c.Latitude
  let lat := if 8 < lat.length then lat.take 8 else lat
  let lon := fmtLon c.Longitude
  let lon := if 9 < lon.length then lon.take 9 else lon
  let data := List.replicate 302 0
  let data := goCopy data 0 [0x52, 0x50, 0x54, 0x43] 4
  let data := (((data.set 4 ((c.ID >>> 24) % 256)).set 5
    ((c.ID >>> 16) % 256)).set 6 ((c.ID >>> 8) % 256)).set 7 (c.ID % 256)
  let fields : List (Nat × List Nat × Nat) :=
    [(8, padStr 8 c.Callsign, 8),
     (16, padNum 9 c.RXFreq, 9),
     (25, padNum 9 c.TXFreq, 9),
     (34, padNum 2 c.TXPower, 2),
     (36, padNum 2 c.ColorCode, 2),
     (38, lat, 8),
     (46, lon, 9),
     (55, padNum 3 c.Height, 3),
     (58, padStr 20 c.Location, 20),
     (78, padStr 19 c.Description, 19),
     (97, padNum 1 c.Slots, 1),
     (98, padStr 124 c.URL, 124),
     (222, padStr 40 c.SoftwareID, 40),
     (262, padStr 40 c.PackageID, 40)]
  let data := fields.foldl (fun d e => goCopy d e.1 e.2.1 e.2.2) data
  (data, c)

/-! ### Protocol frame tags (package-level byte variables) -/

/-- `DMRData = []byte("DMRD")`. -/
def DMRData : List Nat := [0x44, 0x4D, 0x52, 0x44]

/-- `MasterNAK = []byte("MSTNAK")`. -/
def MasterNAK : List Nat := [0x4D, 0x53, 0x54, 0x4E, 0x41, 0x4B]

/-- `MasterACK = []byte("MSTACK")`. -/
def MasterACK : List Nat := [0x4D, 0x53, 0x54, 0x41, 0x43, 0x4B]

/-- `RepeaterACK = []byte("RPTACK")`. -/
def RepeaterACK : List Nat := [0x52, 0x50, 0x54, 0x41, 0x43, 0x4B]

/-- `RepeaterLogin = []byte("RPTL")`. -/
def RepeaterLogin : List Nat := [0x52, 0x50, 0x54, 0x4C]

/-- `RepeaterKey = []byte("RPTK")`. -/
def RepeaterKey : List Nat := [0x52, 0x50, 0x54, 0x4B]

/-- `RepeaterConfig = []byte("RPTC")`. -/
def RepeaterConfig : List Nat := [0x52, 0x50, 0x54, 0x43]

/-- `MasterPing = []byte("MSTPING")`. -/
def MasterPing : List Nat := [0x4D, 0x53, 0x54, 0x50, 0x49, 0x4E, 0x47]

/-- `MasterPong = []byte("MSTPONG")`. -/
def MasterPong : List Nat := [0x4D, 0x53, 0x54, 0x50, 0x4F, 0x4E, 0x47]

/-- `RepeaterPing = []byte("RPTPING")`. -/
def RepeaterPing : List Nat := [0x52, 0x50, 0x54, 0x50, 0x49, 0x4E, 0x47]

/-- `RepeaterPong = []byte("RPTPONG")`. -/
def RepeaterPong : List Nat := [0x52, 0x50, 0x54, 0x50, 0x4F, 0x4E, 0x47]

/-- `RepeaterClosing = []byte("RPTCL")`. -/
def RepeaterClosing : List Nat := [0x52, 0x50, 0x54, 0x43, 0x4C]

/-- Modelled from the spec: the external call-type constants — private
call 0, group call 1 (one-bit field of the packed byte). -/
def CallTypePrivate : Nat := 0

/-- Group call type (see `CallTypePrivate`). -/
def CallTypeGroup : Nat := 1

/-! ### Peer registry and authentication state machine -/

/-- `AuthStatus` with its four constants. -/
inductive AuthStatus where
  | AuthNone
  | AuthBegin
  | AuthDone
  | AuthFailed
  deriving Repr, DecidableEq

export AuthStatus (AuthNone AuthBegin AuthDone AuthFailed)

/-- The `Last` timestamp block of the external `Peer` object.  Go
`time.Time` values are modelled as `Nat`s whose zero value is 0. -/
structure PeerLast where
  PacketSent : Nat
  PacketReceived : Nat
  PingSent : Nat
  PingReceived : Nat
  PongReceived : Nat
  AuthSent : Nat
  TGSubscribed : Nat
  deriving Repr, DecidableEq

/-- The all-zero timestamp block. -/
def PeerLast.zero : PeerLast := ⟨0, 0, 0, 0, 0, 0, 0⟩

/-- The external `Peer` object, with the fields homebrew.go touches.
`Addr` is an abstract address key (`none` models a nil `*net.UDPAddr`);
`idb` is the lowercase `id` byte field that `Link` fills with
`packRepeaterID(peer.ID)`.  The per-peer `PacketReceived` callback is
modelled as absent. -/
structure Peer where
  ID : Nat
  Addr : Option Nat
  AuthKey : List Nat
  Incoming : Bool
  Status : AuthStatus
  Token : List Nat
  TGID : Nat
  Config : Option RepeaterConfiguration
  Last : PeerLast
  UnlinkOnAuthFailure : Bool
  idb : List Nat
  deriving Repr, DecidableEq

/-- `packRepeaterID`: the four big-endian bytes of a `uint32` id. -/
def packRepeaterID (id : Nat) : List Nat :=
  [(id >>> 24) % 256, (id >>> 16) % 256, (id >>> 8) % 256, id % 256]

/-- `unpackRepeaterID`: reads `data[0] … data[3]`; fewer than 4 bytes is
an index-out-of-range panic (`none`). -/
def unpackRepeaterID (data : List Nat) : Option Nat :=
  if 4 ≤ data.length then
    some ((data.getD 0 0 <<< 24) ||| (data.getD 1 0 <<< 16) |||
      (data.getD 2 0 <<< 8) ||| data.getD 3 0)
  else none

/-- Association-list lookup, modelling a Go map read. -/
def lookup (m : List (Nat × Nat)) (k : Nat) : Option Nat :=
  (m.find? (fun e => e.1 == k)).map (fun e => e.2)

/-- Go map assignment `m[k] = v`. -/
def mapSet (m : List (Nat × Nat)) (k v : Nat) : List (Nat × Nat) :=
  (k, v) :: m.filter (fun e => e.1 != k)

/-- Go map deletion `delete(m, k)`. -/
def mapDel (m : List (Nat × Nat)) (k : Nat) : List (Nat × Nat) :=
  m.filter (fun e => e.1 != k)

/-- The `Homebrew` endpoint state.  `Peer` / `PeerID` are the
address-keyed and id-keyed registries (addresses are the `Nat` keys
standing for `addr.String()`); Go pointers are modelled by the `heap`
from object references to `Peer` values, with `nextRef` the allocator
bound; `sent` is the trace of `WriteToPeer` calls as
(destination reference, frame) pairs; `last` is the `h.last` receive
timestamp.  The UDP socket itself is outside the model: writes always
succeed and are recorded in `sent`. -/
structure Homebrew where
  Config : RepeaterConfiguration
  heap : Nat → Option Peer
  Peer : List (Nat × Nat)
  PeerID : List (Nat × Nat)
  nextRef : Nat
  id : List Nat
  last : Nat
  sent : List (Nat × List Nat)

/-- `New(config, addr)`: fresh registries, `id = packRepeaterID(config.ID)`. -/
def newHomebrew (c : RepeaterConfiguration) : Homebrew :=
  { Config := c, Peer := [], PeerID := [], heap := fun _ => none,
    nextRef := 0, id := packRepeaterID c.ID, last := 0, sent := [] }

/-- The ambient effects of one datagram / call: the deterministic
external token mix `UpdateToken` (as a function of auth key and nonce),
`h.checkRepeaterID`'s `bytes.EqualFold` comparison, `parseConfigData`
(float parsing abstracted), the float formatting of `buildConfigData`,
the current time, and the 4 random nonce bytes `rand.Read` yields. -/
structure Env where
  updTok : List Nat → List Nat → List Nat
  ckRep : List Nat → Bool
  parseCfg : List Nat → Option RepeaterConfiguration
  fmtLat : Nat → List Nat
  fmtLon : Nat → List Nat
  now : Nat
  nonce : List Nat

/-- Overwrite the peer object behind reference `r` (a store through a
Go pointer). -/
def setPeer (h : Homebrew) (r : Nat) (p : Peer) : Homebrew :=
  { h with heap := fun n => if n = r then some p else h.heap n }

/-- `WriteToPeer`: stamps `peer.Last.PacketSent` and performs the UDP
write, recorded in the trace. -/
def WriteToPeer (env : Env) (h : Homebrew) (r : Nat) (b : List Nat) : Homebrew :=
  match h.heap r with
  | none => h
  | some p =>
      let h := setPeer h r { p with Last := { p.Last with PacketSent := env.now } }
      { h with sent := h.sent ++ [(r, b)] }

/-- `handleAuth`: for an outgoing peer, stamps `PacketReceived` and, per
status, sends the login (`RPTL‖id`, stamping `AuthSent`) or the key
response (`RPTK‖id‖token`). -/
def handleAuth (env : Env) (h : Homebrew) (r : Nat) : Homebrew :=
  match h.heap r with
  | none => h
  | some p =>
      if p.Incoming then h
      else
        let p := { p with Last := { p.Last with PacketReceived := env.now } }
        let h := setPeer h r p
        match p.Status with
        | AuthNone =>
            let p := { p with Last := { p.Last with AuthSent := env.now } }
            let h := setPeer h r p
            WriteToPeer env h r (RepeaterLogin ++ h.id)
        | AuthBegin =>
            WriteToPeer env h r (RepeaterKey ++ h.id ++ p.Token)
        | _ => h

/-- `Link(peer)`: rejects a nil address or empty auth key (state
unchanged, flag false); otherwise resets the four liveness timestamps
the source resets, fills `peer.id`, registers the object under both
keys, and for an outgoing peer initiates authentication.  `r` is the
reference under which the caller's object is stored. -/
def link (env : Env) (h : Homebrew) (r : Nat) (p : Peer) : Homebrew × Bool :=
  match p.Addr with
  | none => (h, false)
  | some a =>
      if p.AuthKey = [] then (h, false)
      else
        let p := { p with Last :=
                     { p.Last with PacketSent := 0, PacketReceived := 0,
                                   PingSent := 0, PongReceived := 0 } }
        let p := { p with idb := packRepeaterID p.ID }
        let h := { h with heap := fun n => if n = r then some p else h.heap n,
                          Peer := mapSet h.Peer a r,
                          PeerID := mapSet h.PeerID p.ID r,
                          nextRef := max h.nextRef (r + 1) }
        if p.Incoming then (h, true) else (handleAuth env h r, true)

/-- `Unlink(id)`: removes the peer from both registries; an unknown id
is an error (state unchanged, flag false).  A registered peer with a
nil address would make `peer.Addr.String()` panic (`none`); a dangling
reference likewise cannot occur. -/
def unlink (h : Homebrew) (i : Nat) : Option (Homebrew × Bool) :=
  match lookup h.PeerID i with
  | none => some (h, false)
  | some r =>
      match h.heap r with
      | none => none
      | some p =>
          match p.Addr with
          | none => none
          | some a =>
              some ({ h with Peer := mapDel h.Peer a,
                             PeerID := mapDel h.PeerID i }, true)

/-- `SendTG(p, peer)`: snapshot the registry, skip the origin id, write
the built frame to every peer subscribed to the destination talk
group. -/
def SendTG (env : Env) (h : Homebrew) (p : Packet) (origin : Peer) : Homebrew :=
  (h.Peer.map (fun e => e.2)).foldl
    (fun h r =>
      match h.heap r with
      | none => h
      | some toPeer =>
          if toPeer.ID = origin.ID then h
          else if toPeer.TGID = p.DstID then
            WriteToPeer env h r (buildData p h.Config.ID)
          else h)
    h

/-- `handlePacket`: stamps `h.last`; with both the per-peer callback and
`h.pf` absent, a group call updates the origin's talk group and
`TGSubscribed` stamp and relays via `SendTG`; a private call is a
no-op. -/
def handlePacket (env : Env) (h : Homebrew) (p : Packet) (r : Nat) : Homebrew :=
  let h := { h with last := env.now }
  match h.heap r with
  | none => h
  | some peer =>
      if p.CallType = CallTypeGroup then
        let peer := { peer with TGID := p.DstID,
                                Last := { peer.Last with TGSubscribed := env.now } }
        let h := setPeer h r peer
        SendTG env h p peer
      else h

/-- The incoming-role authentication switch of `handle` (peer status
`AuthNone` / `AuthBegin`).  `peer.CheckRepeaterID(data[4:8])` is
evaluated but its result only logged, and `rand.Read` is assumed to
succeed, yielding `env.nonce`. -/
def handleIncomingAuth (env : Env) (h : Homebrew) (r : Nat) (peer : Peer)
    (buffer : List Nat) (n : Nat) : Homebrew :=
  let data := buffer.take n
  match peer.Status with
  | AuthNone =>
      if data.take 4 = RepeaterLogin then
        let peer := { peer with Token := env.updTok peer.AuthKey env.nonce,
                                Status := AuthBegin }
        let h := setPeer h r peer
        WriteToPeer env h r (RepeaterACK ++ env.nonce)
      else h
  | AuthBegin =>
      if data.take 4 = RepeaterKey then
        if n ≠ 40 then
          let peer := { peer with Status := AuthNone }
          let h := setPeer h r peer
          WriteToPeer env h r (MasterNAK ++ h.id)
        else if data.drop 8 ≠ peer.Token then
          let peer := { peer with Status := AuthNone }
          let h := setPeer h r peer
          WriteToPeer env h r (MasterNAK ++ h.id)
        else
          let peer := { peer with Status := AuthDone,
                                  Last := { peer.Last with
                                            PingReceived := env.now,
                                            PongReceived := env.now } }
          let h := setPeer h r peer
          WriteToPeer env h r (RepeaterACK ++ h.id)
      else h
  | _ => h

/-- The outgoing-role authentication switch of `handle`.
`h.checkRepeaterID(data[6:10])` is evaluated but ignored here (the
slice reads the receive buffer beyond the datagram when `n < 10`,
legally, since the buffer's capacity is 302).  `MSTACK` has no case in
status `AuthNone`: only `RPTACK` carries the nonce there. -/
def handleOutgoingAuth (env : Env) (h : Homebrew) (r : Nat) (peer : Peer)
    (buffer : List Nat) (n : Nat) : Option Homebrew :=
  let data := buffer.take n
  match peer.Status with
  | AuthNone =>
      if data.take 6 = RepeaterACK then
        let peer := { peer with Status := AuthBegin,
                                Token := env.updTok peer.AuthKey
                                  ((buffer.drop 6).take 4) }
        let h := setPeer h r peer
        some (handleAuth env h r)
      else if data.take 6 = MasterNAK then
        let peer := { peer with Status := AuthFailed }
        let h := setPeer h r peer
        if peer.UnlinkOnAuthFailure then (unlink h peer.ID).map (fun x => x.1)
        else some h
      else some h
  | AuthBegin =>
      if data.take 6 = MasterACK then
        let peer := { peer with Status := AuthDone,
                                Last := { peer.Last with
                                          PingSent := env.now,
                                          PongReceived := env.now } }
        let h := setPeer h r peer
        let bc := buildConfigData env.fmtLat env.fmtLon h.Config
        let h := { h with Config := bc.2 }
        some (WriteToPeer env h r bc.1)
      else if data.take 6 = MasterNAK then
        let peer := { peer with Status := AuthFailed }
        let h := setPeer h r peer
        if peer.UnlinkOnAuthFailure then (unlink h peer.ID).map (fun x => x.1)
        else some h
      else if data.take 6 = RepeaterACK then
        let peer := { peer with Status := AuthDone,
                                Last := { peer.Last with
                                          PingSent := env.now,
                                          PongReceived := env.now } }
        let h := setPeer h r peer
        let bc := buildConfigData env.fmtLat env.fmtLon h.Config
        let h := { h with Config := bc.2 }
        some (WriteToPeer env h r bc.1)
      else some h
  | _ => some h

/-- The authenticated incoming-role switch of `handle`: DMR data is
parsed and dispatched, pings are answered (stamping `PingReceived`),
`RPTC` stores the parsed configuration (nil on parse failure) and is
acknowledged. -/
def handleDoneIncoming (env : Env) (h : Homebrew) (r : Nat) (peer : Peer)
    (buffer : List Nat) (n : Nat) : Homebrew :=
  let data := buffer.take n
  if data.take 4 = DMRData then
    match parseData data with
    | none => h
    | some p => handlePacket env h p r
  else if n = 10 ∧ data.take 6 = MasterACK then h
  else if n = 11 ∧ data.take 7 = MasterPing then
    let peer := { peer with Last := { peer.Last with PingReceived := env.now } }
    let h := setPeer h r peer
    WriteToPeer env h r (RepeaterPong ++ data.drop 7)
  else if n = 11 ∧ data.take 7 = RepeaterPing then
    let peer := { peer with Last := { peer.Last with PingReceived := env.now } }
    let h := setPeer h r peer
    WriteToPeer env h r (MasterPong ++ data.drop 7)
  else if data.take 4 = RepeaterConfig then
    let peer := { peer with Config := env.parseCfg data }
    let h := setPeer h r peer
    WriteToPeer env h r (RepeaterACK ++ h.id)
  else h

/-- The authenticated outgoing-role switch of `handle`: here a failing
`h.checkRepeaterID` gate returns early (`return nil`), otherwise ACKs
trigger a ping, `MSTNAK` deauthenticates (status `AuthFailed`, re-auth
via `handleAuth`), and pongs stamp `PongReceived`. -/
def handleDoneOutgoing (env : Env) (h : Homebrew) (r : Nat) (peer : Peer)
    (buffer : List Nat) (n : Nat) : Homebrew :=
  let data := buffer.take n
  if data.take 4 = DMRData then
    match parseData data with
    | none => h
    | some p => handlePacket env h p r
  else if n = 10 ∧ data.take 6 = MasterACK then
    if env.ckRep ((buffer.drop 6).take 4) then
      let peer := { peer with Last := { peer.Last with PingSent := env.now } }
      let h := setPeer h r peer
      WriteToPeer env h r (MasterPing ++ h.id)
    else h
  else if n = 10 ∧ data.take 6 = MasterNAK then
    if env.ckRep ((buffer.drop 6).take 4) then
      let peer := { peer with Status := AuthFailed }
      let h := setPeer h r peer
      handleAuth env h r
    else h
  else if n = 10 ∧ data.take 6 = RepeaterACK then
    if env.ckRep ((buffer.drop 6).take 4) then
      let peer := { peer with Last := { peer.Last with PingSent := env.now } }
      let h := setPeer h r peer
      WriteToPeer env h r (MasterPing ++ h.id)
    else h
  else if n = 11 ∧ data.take 7 = MasterPong then
    if env.ckRep ((buffer.drop 7).take 4) then
      setPeer h r { peer with Last := { peer.Last with PongReceived := env.now } }
    else h
  else if n = 11 ∧ data.take 7 = RepeaterPong then
    if env.ckRep ((buffer.drop 7).take 4) then
      setPeer h r { peer with Last := { peer.Last with PongReceived := env.now } }
    else h
  else h

/-- The body of `handle` once the peer is resolved: datagrams shorter
than 8 bytes are dropped, `PacketReceived` is stamped, DMR data is
ignored until authentication is done, then the role/status switches
dispatch. -/
def handleKnown (env : Env) (h : Homebrew) (r : Nat) (buffer : List Nat)
    (n : Nat) : Option Homebrew :=
  if n < 8 then some h
  else
    match h.heap r with
    | none => none
    | some peer =>
        let peer := { peer with Last := { peer.Last with PacketReceived := env.now } }
        let h := setPeer h r peer
        if peer.Status ≠ AuthDone then
          if (buffer.take n).take 4 = DMRData then some h
          else if peer.Incoming then some (handleIncomingAuth env h r peer buffer n)
          else handleOutgoingAuth env h r peer buffer n
        else
          if peer.Incoming then some (handleDoneIncoming env h r peer buffer n)
          else some (handleDoneOutgoing env h r peer buffer n)

/-- The peer `handle` creates on `RPTL` from an unknown address: role
incoming, default auth key `"passw0rd"`, default talk group 446. -/
def newRPTLPeer (repeaterID remote : Nat) : Peer :=
  { ID := repeaterID, Addr := some remote, Config := none,
    AuthKey := [0x70, 0x61, 0x73, 0x73, 0x77, 0x30, 0x72, 0x64],
    Incoming := true, Status := AuthNone, Token := [], TGID := 446,
    Last := PeerLast.zero, UnlinkOnAuthFailure := false, idb := [] }

/-- `handle(remote, data)`, where the datagram is `buffer[0:n]` for the
listener's 302-byte receive buffer.  For an unknown address the code
first compares `data[:4]` — a reslice up to the buffer's capacity, so
it reads stale buffer bytes when `n < 4` — against `RPTL`, and on a
match evaluates `unpackRepeaterID(data[4:])` *before* the minimum
length check: `data[4:]` panics for `n < 4` and `unpackRepeaterID`
indexes out of range for `n < 8` (both `none`). -/
def handle (env : Env) (h : Homebrew) (remote : Nat) (buffer : List Nat)
    (n : Nat) : Option Homebrew :=
  match lookup h.Peer remote with
  | some r => handleKnown env h r buffer n
  | none =>
      if buffer.take 4 = RepeaterLogin then
        if n < 4 then none
        else
          match unpackRepeaterID ((buffer.drop 4).take (n - 4)) with
          | none => none
          | some repeaterID =>
              let h := (link env h h.nextRef (newRPTLPeer repeaterID remote)).1
              match lookup h.Peer remote with
              | some r => handleKnown env h r buffer n
              | none => some h
      else some h

/-! ### Registry invariant and operation sequences (claim C7) -/

/-- The registry coherence invariant: every address-index entry points
at a live peer object whose address is that key and whose id is
registered to the same reference; symmetrically for the id index; and
no object lives at or above the allocator bound. -/
def Inv (h : Homebrew) : Prop :=
  (∀ a r, lookup h.Peer a = some r →
    ∃ p, h.heap r = some p ∧ p.Addr = some a ∧ lookup h.PeerID p.ID = some r) ∧
  (∀ i r, lookup h.PeerID i = some r →
    ∃ p, h.heap r = some p ∧ p.ID = i ∧
      ∃ a, p.Addr = some a ∧ lookup h.Peer a = some r) ∧
  (∀ r, h.nextRef ≤ r → h.heap r = none)

/-- Two states with identical registries and allocator bound whose heaps
have the same domain and agree on every object's `ID` and `Addr`.  All
of `handle`'s per-peer mutations (stamps, status, token, talk group,
stored config) produce such a state. -/
def HeapShape (h h' : Homebrew) : Prop :=
  h'.Peer = h.Peer ∧ h'.PeerID = h.PeerID ∧ h'.nextRef = h.nextRef ∧
  (∀ r p, h.heap r = some p →
    ∃ q, h'.heap r = some q ∧ q.ID = p.ID ∧ q.Addr = p.Addr) ∧
  (∀ r, h.heap r = none → h'.heap r = none)

/-- The registry-mutating operations of claim C7. -/
inductive Op where
  | opLink (env : Env) (r : Nat) (p : Peer)
  | opUnlink (i : Nat)
  | opDatagram (env : Env) (remote : Nat) (buffer : List Nat) (n : Nat)

/-- One operation (`Link`, `Unlink`, or one received datagram). -/
def stepOp (h : Homebrew) : Op → Option Homebrew
  | Op.opLink env r p => some (link env h r p).1
  | Op.opUnlink i => (unlink h i).map (fun x => x.1)
  | Op.opDatagram env remote buffer n => handle env h remote buffer n

/-- The freshness side conditions of the amended claim C7: an explicit
`Link` must use an unused object reference and an address and id not
registered to another peer, and an implicit `RPTL` creation must carry
an id not registered to another peer (its address is fresh by
construction). -/
def OkOp (h : Homebrew) : Op → Prop
  | Op.opLink _ r p =>
      h.heap r = none ∧ (∀ a, p.Addr = some a → lookup h.Peer a = none) ∧
      lookup h.PeerID p.ID = none
  | Op.opUnlink _ => True
  | Op.opDatagram _ remote buffer n =>
      ∀ i, lookup h.Peer remote = none →
        unpackRepeaterID ((buffer.drop 4).take (n - 4)) = some i →
        lookup h.PeerID i = none

/-- A sequence of operations, each satisfying its freshness condition
and none panicking, from `h` to `h''`. -/
inductive RunOk : Homebrew → List Op → Homebrew → Prop where
  | nil (h : Homebrew) : RunOk h [] h
  | cons (h h' h'' : Homebrew) (op : Op) (ops : List Op) :
      OkOp h op → stepOp h op = some h' → RunOk h' ops h'' →
      RunOk h (op :: ops) h''

/-! ### Concrete fixtures used by witnesses and counterexamples -/

/-- A minimal repeater configuration. -/
def cfg0 : RepeaterConfiguration :=
  ⟨0, [], 0, 0, 0, 1, 0, 0, 0, [], [], 0, [], [0x78], [0x78]⟩

/-- A concrete environment: `UpdateToken` yields 32 bytes of `7`,
repeater-id checks succeed, time is 100, the random nonce is
`[1, 2, 3, 4]`. -/
def env0 : Env :=
  ⟨fun _ _ => List.replicate 32 7, fun _ => true, fun _ => none,
   fun _ => [], fun _ => [], 100, [1, 2, 3, 4]⟩

/-- A concrete incoming peer in status `AuthNone` at address key 5. -/
def peerIncoming0 : Peer :=
  ⟨1, some 5, [2, 2], true, AuthNone, [], 446, none, PeerLast.zero, false, []⟩

/-- A concrete outgoing peer in status `AuthNone` at address key 5,
holding token `[9, 9, 9, 9]`. -/
def peerOutgoing0 : Peer :=
  ⟨1, some 5, [2, 2], false, AuthNone, [9, 9, 9, 9], 0, none,
   PeerLast.zero, false, []⟩

/-- An endpoint that already registered `peerIncoming0` under
reference 0. -/
def h0in : Homebrew :=
  { Config := cfg0, heap := fun r => if r = 0 then some peerIncoming0 else none,
    Peer := [(5, 0)], PeerID := [(1, 0)], nextRef := 1,
    id := packRepeaterID cfg0.ID, last := 0, sent := [] }

/-- A concrete incoming peer that *shares its id* with `peerIncoming0`
but lives at a different address (key 6). -/
def peerDupId0 : Peer :=
  ⟨1, some 6, [2, 2], true, AuthNone, [], 446, none, PeerLast.zero, false, []⟩

/-- A concrete incoming peer whose seven liveness stamps are all 7. -/
def peerStamped0 : Peer :=
  ⟨1, some 5, [2, 2], true, AuthNone, [], 446, none,
   ⟨7, 7, 7, 7, 7, 7, 7⟩, false, []⟩

/-- An endpoint that already registered `peerOutgoing0` under
reference 0. -/
def h0out : Homebrew :=
  { Config := cfg0, heap := fun r => if r = 0 then some peerOutgoing0 else none,
    Peer := [(5, 0)], PeerID := [(1, 0)], nextRef := 1,
    id := packRepeaterID cfg0.ID, last := 0, sent := [] }

end homebrew

section TalkerAliasTheorems

open lc

/-- **C1** (code_bug).  The claimed 7-bit round trip is impossible: for
every `TalkerAliasHeaderPDU` with `DataFormat = Format7Bit` and a
non-empty payload, `Bytes()` panics.  Its first loop iteration (`i = 7`)
calls `movebit` with destination byte index `7/8 - 1 = -1`, an
out-of-range slice index, so `ParseTalkerAliasHeaderPDU (t.Bytes)` can
never return the original payload. -/
theorem C1_talker_alias_roundtrip_bytes_panics (t : TalkerAliasHeaderPDU)
    (hfmt : t.DataFormat = Format7Bit) :
    t.Bytes = none := by
  have hmv : ∀ acc : List Nat, movebit t.Data 0 6 acc (-1) 0 = none := by
    intro acc
    unfold movebit
    have hd : ¬((0 : Int) ≤ -1 ∧ (-1 : Int) < (acc.length : Int)) := by
      rintro ⟨h, -⟩
      exact absurd h (by decide)
    simp [hd]
  simp [TalkerAliasHeaderPDU.Bytes, hfmt,
    show List.range' 7 49 = 7 :: List.range' 8 48 from rfl,
    List.foldlM_cons, hmv]

/-- Witness for C1: a concrete 7-bit header (payload `"AAAAAAA"`) whose
`Bytes()` panics. -/
theorem C1_talker_alias_roundtrip_bytes_panics_witness :
    (TalkerAliasHeaderPDU.mk Format7Bit 7 (List.replicate 7 0x41)).Bytes = none :=
  C1_talker_alias_roundtrip_bytes_panics
    (TalkerAliasHeaderPDU.mk Format7Bit 7 (List.replicate 7 0x41))
    rfl

/-- **C2** (code_bug).  Parsing the 7-bit header
`[0x01, 0, 0, 0, 0, 0, 0]` must, per the claim, copy input bit `i = 7`
(byte 0, bit 0, which is 1) to output byte 0, bit 6.  The code instead
returns an all-zero payload, because `movebit` clears the whole
destination byte whenever a later source bit of the same output byte is
zero (`dst[dstByte] &= 0 << dstBit` ANDs with zero). -/
theorem C2_7bit_parse_bit_mapping_violated :
    ParseTalkerAliasHeaderPDU [0x01, 0, 0, 0, 0, 0, 0] =
      some ⟨Format7Bit, 0, [0, 0, 0, 0, 0, 0, 0]⟩ ∧
    Nat.testBit (([0x01, 0, 0, 0, 0, 0, 0] : List Nat).getD 0 0) 0 = true ∧
    Nat.testBit (([0, 0, 0, 0, 0, 0, 0] : List Nat).getD 0 0) 6 = false := by
  refine ⟨by decide, by decide, by decide⟩

end TalkerAliasTheorems

section PacketTheorems

open homebrew

/-- ORing a value below `2 ^ k` into a `k`-shifted value is addition. -/
theorem shl_or_eq_add (k x y : Nat) (hy : y < 2 ^ k) :
    (x <<< k) ||| y = x * 2 ^ k + y := by
  rw [Nat.shiftLeft_eq, Nat.mul_comm]
  exact (Nat.mul_add_lt_is_or hy x).symm

/-- Reassembling the three big-endian bytes of a 24-bit value. -/
theorem decode24 (n : Nat) (hn : n < 2 ^ 24) :
    ((n >>> 16) % 256) <<< 16 ||| ((n >>> 8) % 256) <<< 8 ||| (n % 256) = n := by
  rw [Nat.lor_assoc, shl_or_eq_add 8 _ _ (by omega),
    shl_or_eq_add 16 _ _ (by omega)]
  simp only [Nat.shiftRight_eq_div_pow]
  omega

/-- Reassembling the four big-endian bytes of a 32-bit value. -/
theorem decode32 (n : Nat) (hn : n < 2 ^ 32) :
    ((n >>> 24) % 256) <<< 24 ||| ((n >>> 16) % 256) <<< 16 |||
      ((n >>> 8) % 256) <<< 8 ||| (n % 256) = n := by
  rw [Nat.lor_assoc, Nat.lor_assoc, shl_or_eq_add 8 _ _ (by omega),
    shl_or_eq_add 16 _ _ (by omega), shl_or_eq_add 24 _ _ (by omega)]
  simp only [Nat.shiftRight_eq_div_pow]
  omega

/-- Byte 15 of a built frame decodes back to the packet's timeslot,
call type and data type. -/
theorem packedByte_fields (ts ct dt : Nat) (h1 : ts < 2) (h2 : ct < 2)
    (h3 : DataTypeOK dt) :
    (packedByte ts ct dt >>> 7) &&& 0x01 = ts ∧
    (packedByte ts ct dt >>> 6) &&& 0x01 = ct ∧
    decodeDataType (packedByte ts ct dt) = some dt := by
  rcases h3 with ⟨ha, hb⟩ | hlt
  · simp only [VoiceBurstA, VoiceBurstF] at ha hb
    interval_cases ts <;> interval_cases ct <;> interval_cases dt <;> decide
  · interval_cases ts <;> interval_cases ct <;> interval_cases dt <;> decide

/-- **C4** (confirmed).  For every valid packet `p` and repeater id
`rid`, `parseData (buildData p rid)` succeeds and returns `p` with
`RepeaterID := rid`, every bitfield preserved. -/
theorem C4_dmr_frame_roundtrip (p : Packet) (rid : Nat) (hv : p.Valid)
    (hrid : rid < 2 ^ 32) :
    parseData (buildData p rid) = some { p with RepeaterID := rid } := by
  obtain ⟨hseq, hsrc, hdst, hts, hct, hstream, hber, hrssi, hdlen, hdt⟩ := hv
  have htake : p.Data.take 33 = p.Data := by
    rw [← hdlen]
    exact List.take_length p.Data
  have hrep : List.replicate (33 - p.Data.length) (0 : Nat) = [] := by
    simp [hdlen]
  obtain ⟨hts15, hct15, hdt15⟩ :=
    packedByte_fields p.Timeslot p.CallType p.DataType hts hct hdt
  have h55 : ¬((buildData p rid).length ≠ 55) := by
    simp [buildData, hdlen]
  have e15 : (buildData p rid).getD 15 0 =
      packedByte p.Timeslot p.CallType p.DataType := rfl
  have e53 : (buildData p rid).getD 53 0 = p.BER % 256 := by
    unfold buildData
    rw [htake, hrep, List.append_nil, List.getD_append_right]
    · simp [hdlen]
    · simp [hdlen]
  have e54 : (buildData p rid).getD 54 0 = p.RSSI % 256 := by
    unfold buildData
    rw [htake, hrep, List.append_nil, List.getD_append_right]
    · simp [hdlen]
    · simp [hdlen]
  have eData : ((buildData p rid).drop 20).take 33 = p.Data := by
    unfold buildData
    rw [htake, hrep, List.append_nil, List.append_assoc,
      List.drop_left' (by simp), List.take_left' (by rw [hdlen])]
  unfold parseData
  rw [if_neg h55, e15, hdt15]
  simp only [Option.some.injEq, Packet.mk.injEq]
  refine ⟨rfl, decode24 p.SrcID hsrc, decode24 p.DstID hdst,
    decode32 rid hrid, hts15, hct15, decode32 p.StreamID hstream,
    trivial, ?_, ?_, eData⟩
  · rw [e53]
    exact Nat.mod_eq_of_lt hber
  · rw [e54]
    exact Nat.mod_eq_of_lt hrssi

/-- Witness for C4 at a concrete valid packet and repeater id. -/
theorem C4_dmr_frame_roundtrip_witness :
    (Packet.mk 3 123456 654321 0 1 0 77777 0x12 5 6
        (List.replicate 33 0x21)).Valid ∧ (9 : Nat) < 2 ^ 32 ∧
    parseData (buildData (Packet.mk 3 123456 654321 0 1 0 77777 0x12 5 6
        (List.replicate 33 0x21)) 9) =
      some { Packet.mk 3 123456 654321 0 1 0 77777 0x12 5 6
        (List.replicate 33 0x21) with RepeaterID := 9 } :=
  ⟨by decide, by decide,
    C4_dmr_frame_roundtrip
      (Packet.mk 3 123456 654321 0 1 0 77777 0x12 5 6 (List.replicate 33 0x21))
      9 (by decide) (by decide)⟩

end PacketTheorems

section ConfigTheorems

open homebrew

/-- **C10** (confirmed).  `buildConfigData` writes the clamped values
back into its argument — color code forced into 1..15, TX power above
99 set to 99, slots above 4 set to 4, empty software/package ids
replaced by the module defaults — so encoding is not pure: on the
concrete configuration with `TXPower = 150` the returned configuration
differs from the argument. -/
theorem C10_buildConfigData_mutates_argument (fmtLat fmtLon : Nat → List Nat)
    (c : RepeaterConfiguration) :
    ((buildConfigData fmtLat fmtLon c).2 =
      { c with
        ColorCode := if c.ColorCode < 1 then 1
          else if c.ColorCode > 15 then 15 else c.ColorCode,
        TXPower := if c.TXPower > 99 then 99 else c.TXPower,
        Slots := if c.Slots > 4 then 4 else c.Slots,
        SoftwareID := if c.SoftwareID = [] then dmrSoftwareID else c.SoftwareID,
        PackageID := if c.PackageID = [] then dmrPackageID else c.PackageID }) ∧
    (buildConfigData fmtLat fmtLon
        ⟨0, [], 0, 0, 150, 1, 0, 0, 0, [], [], 0, [], [0x78], [0x78]⟩).2 ≠
      ⟨0, [], 0, 0, 150, 1, 0, 0, 0, [], [], 0, [], [0x78], [0x78]⟩ := by
  constructor
  · have hdef : (buildConfigData fmtLat fmtLon c).2 =
        { c with
          ColorCode := if (if c.ColorCode < 1 then 1 else c.ColorCode) > 15
            then 15 else if c.ColorCode < 1 then 1 else c.ColorCode,
          TXPower := if c.TXPower > 99 then 99 else c.TXPower,
          Slots := if c.Slots > 4 then 4 else c.Slots,
          SoftwareID := if c.SoftwareID = [] then dmrSoftwareID else c.SoftwareID,
          PackageID := if c.PackageID = [] then dmrPackageID else c.PackageID } := rfl
    rw [hdef]
    by_cases h1 : c.ColorCode < 1
    · simp [h1]
    · simp [h1]
  · intro hEq
    have h99 := congrArg RepeaterConfiguration.TXPower hEq
    have he : (buildConfigData fmtLat fmtLon
        ⟨0, [], 0, 0, 150, 1, 0, 0, 0, [], [], 0, [], [0x78], [0x78]⟩).2.TXPower
        = 99 := rfl
    rw [he] at h99
    exact absurd h99 (by decide)

end ConfigTheorems

section LinkTheorems

open homebrew

/-- **C8** (corrected): counterexample.  A successful `Link` of a peer
whose `PingReceived`, `AuthSent` and `TGSubscribed` stamps are all 7
leaves those three stamps at 7 — they are not reset to the zero value
as the claim demands. -/
theorem C8_link_reset_counterexample :
    (link env0 (newHomebrew cfg0) 0 peerStamped0).2 = true ∧
    ((link env0 (newHomebrew cfg0) 0 peerStamped0).1.heap 0).map
      (fun q => (q.Last.PingReceived, q.Last.AuthSent, q.Last.TGSubscribed)) =
      some (7, 7, 7) := by
  exact ⟨rfl, rfl⟩

/-- **C8** (corrected, amended): a successful `Link` of any peer with a
non-nil address and non-empty auth key resets exactly `PacketSent`,
`PacketReceived`, `PingSent` and `PongReceived` to the zero value (and
fills the packed-id field); `PingReceived` and `TGSubscribed` are never
zeroed.  For an incoming peer the registered object is exactly that
reset (so `AuthSent` is also unchanged).  For an outgoing peer the auth
initiation that follows registration immediately re-stamps some of
them: linked in status `AuthNone` it stamps `PacketReceived`,
`AuthSent` and `PacketSent` with the current time; in `AuthBegin` it
stamps `PacketReceived` and `PacketSent` (keeping `AuthSent`); in
`AuthDone`/`AuthFailed` it stamps only `PacketReceived`. -/
theorem C8_link_resets_four_timestamps (env : Env) (h : Homebrew) (r a : Nat)
    (p : Peer) (ha : p.Addr = some a) (hk : p.AuthKey ≠ []) :
    (link env h r p).2 = true ∧
    (p.Incoming = true →
      (link env h r p).1.heap r = some
        { p with Last := { p.Last with PacketSent := 0, PacketReceived := 0,
                                       PingSent := 0, PongReceived := 0 },
                 idb := packRepeaterID p.ID }) ∧
    (p.Incoming = false → p.Status = AuthNone →
      (link env h r p).1.heap r = some
        { p with Last := { p.Last with PacketSent := env.now,
                                       PacketReceived := env.now,
                                       PingSent := 0, PongReceived := 0,
                                       AuthSent := env.now },
                 idb := packRepeaterID p.ID }) ∧
    (p.Incoming = false → p.Status = AuthBegin →
      (link env h r p).1.heap r = some
        { p with Last := { p.Last with PacketSent := env.now,
                                       PacketReceived := env.now,
                                       PingSent := 0, PongReceived := 0 },
                 idb := packRepeaterID p.ID }) ∧
    (p.Incoming = false → (p.Status = AuthDone ∨ p.Status = AuthFailed) →
      (link env h r p).1.heap r = some
        { p with Last := { p.Last with PacketSent := 0,
                                       PacketReceived := env.now,
                                       PingSent := 0, PongReceived := 0 },
                 idb := packRepeaterID p.ID }) := by
  refine ⟨?_, ?_, ?_, ?_, ?_⟩
  · by_cases hin : p.Incoming = true <;> simp [link, ha, hk, hin]
  · intro hin
    simp [link, ha, hk, hin]
  · intro hin hst
    simp [link, handleAuth, WriteToPeer, setPeer, ha, hk, hin, hst]
  · intro hin hst
    simp [link, handleAuth, WriteToPeer, setPeer, ha, hk, hin, hst]
  · intro hin hst
    rcases hst with hst | hst <;>
      simp [link, handleAuth, WriteToPeer, setPeer, ha, hk, hin, hst]

/-- Witness for the amended C8: the incoming leg at the concrete
stamped peer, and the outgoing `AuthNone` leg at the concrete outgoing
peer. -/
theorem C8_link_resets_four_timestamps_witness :
    peerStamped0.Addr = some 5 ∧ peerStamped0.AuthKey ≠ [] ∧
    peerStamped0.Incoming = true ∧
    (link env0 (newHomebrew cfg0) 0 peerStamped0).2 = true ∧
    (link env0 (newHomebrew cfg0) 0 peerStamped0).1.heap 0 = some
      { peerStamped0 with
        Last := { peerStamped0.Last with PacketSent := 0, PacketReceived := 0,
                                         PingSent := 0, PongReceived := 0 },
        idb := packRepeaterID peerStamped0.ID } ∧
    peerOutgoing0.Incoming = false ∧ peerOutgoing0.Status = AuthNone ∧
    (link env0 (newHomebrew cfg0) 0 peerOutgoing0).1.heap 0 = some
      { peerOutgoing0 with
        Last := { peerOutgoing0.Last with PacketSent := env0.now,
                                          PacketReceived := env0.now,
                                          PingSent := 0, PongReceived := 0,
                                          AuthSent := env0.now },
        idb := packRepeaterID peerOutgoing0.ID } :=
  ⟨rfl, by decide, rfl,
    (C8_link_resets_four_timestamps env0 (newHomebrew cfg0) 0 5 peerStamped0
      rfl (by decide)).1,
    (C8_link_resets_four_timestamps env0 (newHomebrew cfg0) 0 5 peerStamped0
      rfl (by decide)).2.1 rfl,
    rfl, rfl,
    (C8_link_resets_four_timestamps env0 (newHomebrew cfg0) 0 5 peerOutgoing0
      rfl (by decide)).2.2.1 rfl rfl⟩

end LinkTheorems

section OutgoingNonceTheorems

open homebrew

/-- **C3** (corrected): counterexample.  An outgoing peer in status
`AuthNone` that receives `MSTACK‖nonce` keeps status `AuthNone` and its
old token, and nothing is sent: the claim that both verb spellings are
accepted fails — `MSTACK` has no case in the outgoing `AuthNone`
switch. -/
theorem C3_mstack_nonce_ignored_counterexample :
    (handle env0 h0out 5 (MasterACK ++ [1, 2, 3, 4]) 10).map
      (fun h1 => ((h1.heap 0).map (fun q => (q.Status, q.Token)), h1.sent)) =
      some (some (AuthNone, [9, 9, 9, 9]), []) := by
  decide

/-- **C3** (corrected, amended).  For every outgoing peer in state
`AuthNone`, receipt of `RPTACK‖nonce` stores the nonce-derived token
(`UpdateToken`), sends `RPTK‖id‖token`, and moves the peer to state
`AuthBegin`; the spelling `MSTACK‖nonce` is *ignored* in state
`AuthNone` (status, token and send trace unchanged) — it is accepted
only later, in state `AuthBegin`. -/
theorem C3_outgoing_nonce_rptack_only (env : Env) (h : Homebrew)
    (remote r : Nat) (p : Peer) (nonce : List Nat)
    (hpr : lookup h.Peer remote = some r) (hp : h.heap r = some p)
    (hin : p.Incoming = false) (hst : p.Status = AuthNone)
    (hn : nonce.length = 4) :
    (handle env h remote (RepeaterACK ++ nonce) 10).map
      (fun h1 => ((h1.heap r).map (fun q => (q.Status, q.Token)), h1.sent)) =
      some (some (AuthBegin, env.updTok p.AuthKey nonce),
        h.sent ++ [(r, RepeaterKey ++ h.id ++ env.updTok p.AuthKey nonce)]) ∧
    (handle env h remote (MasterACK ++ nonce) 10).map
      (fun h1 => ((h1.heap r).map (fun q => (q.Status, q.Token)), h1.sent)) =
      some (some (AuthNone, p.Token), h.sent) := by
  have h4 : nonce.take 4 = nonce := List.take_of_length_le (by omega)
  have h10a : (RepeaterACK ++ nonce).take 10 = RepeaterACK ++ nonce :=
    List.take_of_length_le (by simp [RepeaterACK, hn])
  have h10b : (MasterACK ++ nonce).take 10 = MasterACK ++ nonce :=
    List.take_of_length_le (by simp [MasterACK, hn])
  constructor
  · simp [handle, handleKnown, handleOutgoingAuth, handleAuth, WriteToPeer,
      setPeer, hpr, hp, hin, hst, h4, h10a,
      RepeaterACK, MasterACK, RepeaterKey, MasterNAK, DMRData]
  · simp [handle, handleKnown, handleOutgoingAuth, setPeer,
      hpr, hp, hin, hst, h4, h10b,
      RepeaterACK, MasterACK, MasterNAK, DMRData]

/-- Witness for the amended C3 at the concrete outgoing fixture. -/
theorem C3_outgoing_nonce_rptack_only_witness :
    lookup h0out.Peer 5 = some 0 ∧ h0out.heap 0 = some peerOutgoing0 ∧
    peerOutgoing0.Incoming = false ∧ peerOutgoing0.Status = AuthNone ∧
    ((handle env0 h0out 5 (RepeaterACK ++ [1, 2, 3, 4]) 10).map
      (fun h1 => ((h1.heap 0).map (fun q => (q.Status, q.Token)), h1.sent)) =
      some (some (AuthBegin, env0.updTok peerOutgoing0.AuthKey [1, 2, 3, 4]),
        h0out.sent ++
          [(0, RepeaterKey ++ h0out.id ++
            env0.updTok peerOutgoing0.AuthKey [1, 2, 3, 4])]) ∧
     (handle env0 h0out 5 (MasterACK ++ [1, 2, 3, 4]) 10).map
      (fun h1 => ((h1.heap 0).map (fun q => (q.Status, q.Token)), h1.sent)) =
      some (some (AuthNone, peerOutgoing0.Token), h0out.sent)) :=
  ⟨rfl, rfl, rfl, rfl,
    C3_outgoing_nonce_rptack_only env0 h0out 5 0 peerOutgoing0 [1, 2, 3, 4]
      rfl rfl rfl rfl rfl⟩

end OutgoingNonceTheorems

section IncomingAuthTheorems

open homebrew

/-- **C5** (confirmed).  For an incoming peer starting in `AuthNone`:
`RPTL‖id` is answered with `RPTACK‖nonce` and moves the peer to
`AuthBegin`; following it with the 40-byte `RPTK‖id‖token` carrying the
stored token ends with status `AuthDone` and reply `RPTACK‖masterId`;
while any `RPTK‖id‖tok` whose token differs in at least one byte or
whose total length is not 40 is answered with `MSTNAK‖masterId` and
resets the peer to `AuthNone`. -/
theorem C5_incoming_auth_progression (env1 env2 : Env) (h : Homebrew)
    (remote r : Nat) (p : Peer) (id4 : List Nat) (hid4 : id4.length = 4)
    (hpr : lookup h.Peer remote = some r) (hp : h.heap r = some p)
    (hin : p.Incoming = true) (hst : p.Status = AuthNone)
    (htok : (env1.updTok p.AuthKey env1.nonce).length = 32) :
    (handle env1 h remote (RepeaterLogin ++ id4) 8).map
      (fun h1 => ((h1.heap r).map (fun q => q.Status), h1.sent)) =
      some (some AuthBegin, h.sent ++ [(r, RepeaterACK ++ env1.nonce)]) ∧
    ((handle env1 h remote (RepeaterLogin ++ id4) 8).bind
      (fun h1 => handle env2 h1 remote
        (RepeaterKey ++ id4 ++ env1.updTok p.AuthKey env1.nonce) 40)).map
      (fun h2 => ((h2.heap r).map (fun q => q.Status), h2.sent)) =
      some (some AuthDone,
        h.sent ++ [(r, RepeaterACK ++ env1.nonce), (r, RepeaterACK ++ h.id)]) ∧
    ∀ tok : List Nat,
      8 + tok.length ≠ 40 ∨ tok ≠ env1.updTok p.AuthKey env1.nonce →
      ((handle env1 h remote (RepeaterLogin ++ id4) 8).bind
        (fun h1 => handle env2 h1 remote (RepeaterKey ++ id4 ++ tok)
          (8 + tok.length))).map
        (fun h2 => ((h2.heap r).map (fun q => q.Status), h2.sent)) =
      some (some AuthNone,
        h.sent ++ [(r, RepeaterACK ++ env1.nonce), (r, MasterNAK ++ h.id)]) := by
  have h8 : (RepeaterLogin ++ id4).take 8 = RepeaterLogin ++ id4 :=
    List.take_of_length_le (by simp [RepeaterLogin, hid4])
  have hnorm : List.drop 4 (List.take 36 (id4 ++ env1.updTok p.AuthKey env1.nonce)) =
      env1.updTok p.AuthKey env1.nonce := by
    rw [List.take_of_length_le (by simp [hid4, htok])]
    exact List.drop_left' hid4
  refine ⟨?_, ?_, ?_⟩
  · simp [handle, handleKnown, handleIncomingAuth, WriteToPeer, setPeer,
      hpr, hp, hin, hst, h8,
      RepeaterLogin, RepeaterKey, RepeaterACK, DMRData]
  · simp [handle, handleKnown, handleIncomingAuth, WriteToPeer, setPeer,
      hpr, hp, hin, hst, h8, hnorm,
      RepeaterLogin, RepeaterKey, RepeaterACK, MasterNAK, DMRData]
  · intro tok hbad
    rcases hbad with hlen | hne
    · have hge : ¬(8 + tok.length < 8) := by omega
      have hwhole : List.take (8 + tok.length)
          ((82 : Nat) :: 80 :: 84 :: 75 :: (id4 ++ tok)) =
          (82 : Nat) :: 80 :: 84 :: 75 :: (id4 ++ tok) :=
        List.take_of_length_le (by simp [hid4]; omega)
      simp [handle, handleKnown, handleIncomingAuth, WriteToPeer, setPeer,
        hpr, hp, hin, hst, h8, hlen, hge, hwhole,
        RepeaterLogin, RepeaterKey, RepeaterACK, MasterNAK, DMRData]
    · by_cases hlen : 8 + tok.length = 40
      · have hlen32 : tok.length = 32 := by omega
        have hnorm2 : List.drop 4 (List.take 36 (id4 ++ tok)) = tok := by
          rw [List.take_of_length_le (by simp [hid4, hlen32])]
          exact List.drop_left' hid4
        simp [handle, handleKnown, handleIncomingAuth, WriteToPeer, setPeer,
          hpr, hp, hin, hst, h8, hlen, hnorm2, hne,
          RepeaterLogin, RepeaterKey, RepeaterACK, MasterNAK, DMRData]
      · have hge : ¬(8 + tok.length < 8) := by omega
        have hwhole : List.take (8 + tok.length)
            ((82 : Nat) :: 80 :: 84 :: 75 :: (id4 ++ tok)) =
            (82 : Nat) :: 80 :: 84 :: 75 :: (id4 ++ tok) :=
          List.take_of_length_le (by simp [hid4]; omega)
        simp [handle, handleKnown, handleIncomingAuth, WriteToPeer, setPeer,
          hpr, hp, hin, hst, h8, hlen, hge, hwhole,
          RepeaterLogin, RepeaterKey, RepeaterACK, MasterNAK, DMRData]

/-- Witness for C5 at the concrete incoming fixture, with the matching
32-byte token and, for the failure leg, a token differing in every
byte. -/
theorem C5_incoming_auth_progression_witness :
    lookup h0in.Peer 5 = some 0 ∧ h0in.heap 0 = some peerIncoming0 ∧
    (env0.updTok peerIncoming0.AuthKey env0.nonce).length = 32 ∧
    ((handle env0 h0in 5 (RepeaterLogin ++ [0, 0, 0, 1]) 8).map
      (fun h1 => ((h1.heap 0).map (fun q => q.Status), h1.sent)) =
      some (some AuthBegin, h0in.sent ++ [(0, RepeaterACK ++ env0.nonce)]) ∧
     ((handle env0 h0in 5 (RepeaterLogin ++ [0, 0, 0, 1]) 8).bind
      (fun h1 => handle env0 h1 5
        (RepeaterKey ++ [0, 0, 0, 1] ++
          env0.updTok peerIncoming0.AuthKey env0.nonce) 40)).map
      (fun h2 => ((h2.heap 0).map (fun q => q.Status), h2.sent)) =
      some (some AuthDone,
        h0in.sent ++ [(0, RepeaterACK ++ env0.nonce), (0, RepeaterACK ++ h0in.id)]) ∧
     ∀ tok : List Nat,
      8 + tok.length ≠ 40 ∨ tok ≠ env0.updTok peerIncoming0.AuthKey env0.nonce →
      ((handle env0 h0in 5 (RepeaterLogin ++ [0, 0, 0, 1]) 8).bind
        (fun h1 => handle env0 h1 5 (RepeaterKey ++ [0, 0, 0, 1] ++ tok)
          (8 + tok.length))).map
        (fun h2 => ((h2.heap 0).map (fun q => q.Status), h2.sent)) =
      some (some AuthNone,
        h0in.sent ++ [(0, RepeaterACK ++ env0.nonce), (0, MasterNAK ++ h0in.id)])) :=
  ⟨rfl, rfl, rfl,
    C5_incoming_auth_progression env0 env0 h0in 5 0 peerIncoming0 [0, 0, 0, 1]
      rfl rfl rfl rfl rfl rfl⟩

end IncomingAuthTheorems

section ShortDatagramTheorems

open homebrew

/-- **C6** (code_bug).  A 4-byte datagram `RPTL` (and likewise a 2-byte
one when the receive buffer's stale bytes start with `RPTL`) from an
unknown address is *not* dropped: `handle` evaluates
`unpackRepeaterID(data[4:])` before the minimum-length check and
panics, contrary to the claim that every datagram shorter than 8 bytes
is dropped with no effect. -/
theorem C6_short_rptl_datagram_panics :
    handle env0 (newHomebrew cfg0) 5 (RepeaterLogin ++ List.replicate 298 0) 4 =
      none ∧
    handle env0 (newHomebrew cfg0) 5 (RepeaterLogin ++ List.replicate 298 0) 2 =
      none :=
  ⟨rfl, rfl⟩

end ShortDatagramTheorems

section RegistryTheorems

open homebrew

/-- `find?` ignores entries removed by a filter on a different key. -/
theorem find?_filter_ne (k k' : Nat) (h : k' ≠ k) (m : List (Nat × Nat)) :
    (m.filter (fun e => e.1 != k)).find? (fun e => e.1 == k') =
      m.find? (fun e => e.1 == k') := by
  induction m with
  | nil => rfl
  | cons a m ih =>
      by_cases ha : a.1 = k
      · have hbe : (k == k') = false := beq_eq_false_iff_ne.mpr (Ne.symm h)
        simp [List.filter_cons, ha, List.find?_cons, hbe, ih]
      · have hne : (a.1 != k) = true := bne_iff_ne.mpr ha
        simp only [List.filter_cons, hne, if_true, List.find?_cons]
        cases hbe : (a.1 == k') with
        | true => rfl
        | false => exact ih

/-- Reading a Go map after an assignment. -/
theorem lookup_mapSet (m : List (Nat × Nat)) (k v k' : Nat) :
    lookup (mapSet m k v) k' = if k' = k then some v else lookup m k' := by
  by_cases h : k' = k
  · subst h
    simp [lookup, mapSet, List.find?_cons]
  · have hbe : (k == k') = false := beq_eq_false_iff_ne.mpr (Ne.symm h)
    simp [lookup, mapSet, List.find?_cons, hbe, h, find?_filter_ne k k' h]

/-- Reading a Go map after a deletion. -/
theorem lookup_mapDel (m : List (Nat × Nat)) (k k' : Nat) :
    lookup (mapDel m k) k' = if k' = k then none else lookup m k' := by
  by_cases h : k' = k
  · subst h
    simp only [lookup, mapDel, if_pos rfl]
    induction m with
    | nil => rfl
    | cons a m ih =>
        by_cases ha : a.1 = k'
        · have : (a.1 != k') = false := by simp [ha]
          simp [List.filter_cons, this, ih]
        · have h1 : (a.1 != k') = true := bne_iff_ne.mpr ha
          have h2 : (a.1 == k') = false := beq_eq_false_iff_ne.mpr ha
          simp [List.filter_cons, h1, List.find?_cons, h2, ih]
  · simp [lookup, mapDel, h, find?_filter_ne k k' h]

/-- `HeapShape` is reflexive. -/
theorem heapShape_refl (h : Homebrew) : HeapShape h h :=
  ⟨rfl, rfl, rfl, fun _ p hp => ⟨p, hp, rfl, rfl⟩, fun _ hr => hr⟩

/-- `HeapShape` composes. -/
theorem heapShape_trans {h1 h2 h3 : Homebrew}
    (a : HeapShape h1 h2) (b : HeapShape h2 h3) : HeapShape h1 h3 := by
  obtain ⟨p1, p2, p3, hsome, hnone⟩ := a
  obtain ⟨q1, q2, q3, gsome, gnone⟩ := b
  refine ⟨q1.trans p1, q2.trans p2, q3.trans p3, ?_,
    fun r hr => gnone r (hnone r hr)⟩
  intro r p hp
  obtain ⟨q, hq, hid, haddr⟩ := hsome r p hp
  obtain ⟨q', hq', hid', haddr'⟩ := gsome r q hq
  exact ⟨q', hq', hid'.trans hid, haddr'.trans haddr⟩

/-- Overwriting a live object with one of the same id and address
preserves the heap shape. -/
theorem heapShape_setPeer (h : Homebrew) (r : Nat) (p q : Peer)
    (hp : h.heap r = some p) (hid : q.ID = p.ID) (haddr : q.Addr = p.Addr) :
    HeapShape h (setPeer h r q) := by
  refine ⟨rfl, rfl, rfl, ?_, ?_⟩
  · intro r' p' hp'
    by_cases hr : r' = r
    · subst hr
      rw [hp] at hp'
      obtain rfl : p = p' := by injection hp'
      exact ⟨q, by simp [setPeer], hid, haddr⟩
    · exact ⟨p', by simp [setPeer, hr, hp'], rfl, rfl⟩
  · intro r' hr'
    by_cases hr : r' = r
    · subst hr
      rw [hp] at hr'
      exact absurd hr' (by simp)
    · simpa [setPeer, hr] using hr'

/-- Updating only the `sent` trace preserves the heap shape. -/
theorem heapShape_sent (h : Homebrew) (s : List (Nat × List Nat)) :
    HeapShape h { h with sent := s } :=
  ⟨rfl, rfl, rfl, fun _ p hp => ⟨p, hp, rfl, rfl⟩, fun _ hr => hr⟩

/-- Updating only the `last` stamp preserves the heap shape. -/
theorem heapShape_last (h : Homebrew) (t : Nat) :
    HeapShape h { h with last := t } :=
  ⟨rfl, rfl, rfl, fun _ p hp => ⟨p, hp, rfl, rfl⟩, fun _ hr => hr⟩

/-- Updating only the shared configuration preserves the heap shape. -/
theorem heapShape_Config (h : Homebrew) (c : RepeaterConfiguration) :
    HeapShape h { h with Config := c } :=
  ⟨rfl, rfl, rfl, fun _ p hp => ⟨p, hp, rfl, rfl⟩, fun _ hr => hr⟩

/-- `WriteToPeer` preserves the heap shape. -/
theorem heapShape_WriteToPeer (env : Env) (h : Homebrew) (r : Nat)
    (b : List Nat) : HeapShape h (WriteToPeer env h r b) := by
  unfold WriteToPeer
  split
  · exact heapShape_refl h
  · next p heq =>
      refine heapShape_trans (heapShape_setPeer h r p _ heq ?_ ?_)
        (heapShape_sent _ _)
      · rfl
      · rfl

/-- `handleAuth` preserves the heap shape. -/
theorem heapShape_handleAuth (env : Env) (h : Homebrew) (r : Nat) :
    HeapShape h (handleAuth env h r) := by
  unfold handleAuth
  split
  · exact heapShape_refl h
  · next p heq =>
      by_cases hinc : p.Incoming
      · rw [if_pos hinc]
        exact heapShape_refl h
      · rw [if_neg hinc]
        dsimp only
        split
        · refine heapShape_trans (heapShape_setPeer h r p
            { p with Last := { p.Last with PacketReceived := env.now } }
            heq rfl rfl) ?_
          refine heapShape_trans (heapShape_setPeer _ r
            { p with Last := { p.Last with PacketReceived := env.now } }
            { p with Last := { p.Last with PacketReceived := env.now,
                                           AuthSent := env.now } }
            ?_ rfl rfl) (heapShape_WriteToPeer _ _ _ _)
          simp [setPeer]
        · exact heapShape_trans (heapShape_setPeer h r p
            { p with Last := { p.Last with PacketReceived := env.now } }
            heq rfl rfl) (heapShape_WriteToPeer _ _ _ _)
        · exact heapShape_setPeer h r p
            { p with Last := { p.Last with PacketReceived := env.now } }
            heq rfl rfl

/-- `SendTG` preserves the heap shape. -/
theorem heapShape_SendTG (env : Env) (pkt : Packet) (origin : Peer) :
    ∀ h : Homebrew, HeapShape h (SendTG env h pkt origin) := by
  intro h
  unfold SendTG
  generalize (h.Peer.map (fun e => e.2)) = refs
  induction refs generalizing h with
  | nil => exact heapShape_refl h
  | cons r rest ih =>
      rw [List.foldl_cons]
      refine heapShape_trans ?_ (ih _)
      split
      · exact heapShape_refl h
      · next toPeer heq =>
          by_cases h1 : toPeer.ID = origin.ID
          · rw [if_pos h1]
            exact heapShape_refl h
          · rw [if_neg h1]
            by_cases h2 : toPeer.TGID = pkt.DstID
            · rw [if_pos h2]
              exact heapShape_WriteToPeer _ _ _ _
            · rw [if_neg h2]
              exact heapShape_refl h

/-- `handlePacket` preserves the heap shape. -/
theorem heapShape_handlePacket (env : Env) (h : Homebrew) (pkt : Packet)
    (r : Nat) : HeapShape h (handlePacket env h pkt r) := by
  unfold handlePacket
  refine heapShape_trans (heapShape_last h env.now) ?_
  dsimp only
  split
  · exact heapShape_refl _
  · next peer heq =>
      by_cases hc : pkt.CallType = CallTypeGroup
      · rw [if_pos hc]
        refine heapShape_trans (heapShape_setPeer _ r peer
          { peer with TGID := pkt.DstID,
                      Last := { peer.Last with TGSubscribed := env.now } }
          heq rfl rfl) (heapShape_SendTG _ _ _ _)
      · rw [if_neg hc]
        exact heapShape_refl _

/-- A state of the same heap shape inherits the registry invariant. -/
theorem inv_of_heapShape {h h' : Homebrew} (hs : HeapShape h h')
    (hi : Inv h) : Inv h' := by
  obtain ⟨hP, hI, hN, hsome, hnone⟩ := hs
  obtain ⟨i1, i2, i3⟩ := hi
  refine ⟨?_, ?_, ?_⟩
  · intro a r hl
    rw [hP] at hl
    obtain ⟨p, hp, ha, hid⟩ := i1 a r hl
    obtain ⟨q, hq, hqid, hqaddr⟩ := hsome r p hp
    refine ⟨q, hq, by rw [hqaddr, ha], ?_⟩
    rw [hI, hqid]
    exact hid
  · intro i r hl
    rw [hI] at hl
    obtain ⟨p, hp, hid, a, ha, hla⟩ := i2 i r hl
    obtain ⟨q, hq, hqid, hqaddr⟩ := hsome r p hp
    refine ⟨q, hq, by rw [hqid]; exact hid, a, by rw [hqaddr]; exact ha, ?_⟩
    rw [hP]
    exact hla
  · intro r hr
    rw [hN] at hr
    exact hnone r (i3 r hr)

/-- `Unlink` preserves the registry invariant. -/
theorem inv_unlink {h : Homebrew} (hi : Inv h) (i : Nat) (h' : Homebrew)
    (b : Bool) (hu : unlink h i = some (h', b)) : Inv h' := by
  obtain ⟨i1, i2, i3⟩ := hi
  cases hl : lookup h.PeerID i with
  | none =>
      have hu2 : unlink h i = some (h, false) := by
        simp only [unlink, hl]
      rw [hu2] at hu
      simp only [Option.some.injEq, Prod.mk.injEq] at hu
      obtain ⟨rfl, -⟩ := hu
      exact ⟨i1, i2, i3⟩
  | some r =>
      obtain ⟨p, hp, hpid, a, ha, hla⟩ := i2 i r hl
      have hu2 : unlink h i =
          some ({ h with Peer := mapDel h.Peer a,
                         PeerID := mapDel h.PeerID i }, true) := by
        simp only [unlink, hl, hp, ha]
      rw [hu2] at hu
      simp only [Option.some.injEq, Prod.mk.injEq] at hu
      obtain ⟨rfl, -⟩ := hu
      refine ⟨?_, ?_, i3⟩
      · intro a' r' hl'
        simp only [lookup_mapDel] at hl'
        by_cases haa : a' = a
        · rw [if_pos haa] at hl'
          exact Option.noConfusion hl'
        · rw [if_neg haa] at hl'
          obtain ⟨p', hp', ha', hid'⟩ := i1 a' r' hl'
          refine ⟨p', hp', ha', ?_⟩
          simp only [lookup_mapDel]
          by_cases hii : p'.ID = i
          · exfalso
            rw [hii, hl] at hid'
            obtain rfl : r = r' := by injection hid'
            rw [hp] at hp'
            obtain rfl : p = p' := by injection hp'
            rw [ha] at ha'
            obtain rfl : a = a' := by injection ha'
            exact haa rfl
          · rw [if_neg hii]
            exact hid'
      · intro i' r' hl'
        simp only [lookup_mapDel] at hl'
        by_cases hii : i' = i
        · rw [if_pos hii] at hl'
          exact Option.noConfusion hl'
        · rw [if_neg hii] at hl'
          obtain ⟨p', hp', hid', a', ha', hla'⟩ := i2 i' r' hl'
          refine ⟨p', hp', hid', a', ha', ?_⟩
          simp only [lookup_mapDel]
          by_cases haa : a' = a
          · exfalso
            rw [haa, hla] at hla'
            obtain rfl : r = r' := by injection hla'
            rw [hp] at hp'
            obtain rfl : p = p' := by injection hp'
            rw [hpid] at hid'
            exact hii hid'.symm
          · rw [if_neg haa]
            exact hla'

/-- Registering a fresh object under a fresh address and a fresh id
preserves the invariant: the common core of `Link` and the implicit
`RPTL` peer creation. -/
theorem inv_register (h : Homebrew) (r a : Nat) (q : Peer)
    (hi : Inv h) (hfr : h.heap r = none) (hqa : q.Addr = some a)
    (hfa : lookup h.Peer a = none) (hfi : lookup h.PeerID q.ID = none) :
    Inv { h with heap := fun n => if n = r then some q else h.heap n,
                 Peer := mapSet h.Peer a r,
                 PeerID := mapSet h.PeerID q.ID r,
                 nextRef := max h.nextRef (r + 1) } := by
  obtain ⟨i1, i2, i3⟩ := hi
  refine ⟨?_, ?_, ?_⟩
  · intro a' r' hl'
    simp only [lookup_mapSet] at hl'
    by_cases haa : a' = a
    · rw [if_pos haa] at hl'
      obtain rfl : r = r' := by injection hl'
      subst haa
      refine ⟨q, by simp, hqa, ?_⟩
      simp [lookup_mapSet]
    · rw [if_neg haa] at hl'
      obtain ⟨p', hp', ha', hid'⟩ := i1 a' r' hl'
      have hrr : r' ≠ r := by
        intro e
        subst e
        rw [hfr] at hp'
        exact Option.noConfusion hp'
      refine ⟨p', ?_, ha', ?_⟩
      · show (if r' = r then some q else h.heap r') = some p'
        rw [if_neg hrr]
        exact hp'
      · simp only [lookup_mapSet]
        by_cases hqi : p'.ID = q.ID
        · exfalso
          rw [hqi, hfi] at hid'
          exact Option.noConfusion hid'
        · rw [if_neg hqi]
          exact hid'
  · intro i' r' hl'
    simp only [lookup_mapSet] at hl'
    by_cases hii : i' = q.ID
    · rw [if_pos hii] at hl'
      obtain rfl : r = r' := by injection hl'
      subst hii
      refine ⟨q, by simp, rfl, a, hqa, ?_⟩
      simp [lookup_mapSet]
    · rw [if_neg hii] at hl'
      obtain ⟨p', hp', hid', a', ha', hla'⟩ := i2 i' r' hl'
      have hrr : r' ≠ r := by
        intro e
        subst e
        rw [hfr] at hp'
        exact Option.noConfusion hp'
      refine ⟨p', ?_, hid', a', ha', ?_⟩
      · show (if r' = r then some q else h.heap r') = some p'
        rw [if_neg hrr]
        exact hp'
      · simp only [lookup_mapSet]
        by_cases haa : a' = a
        · exfalso
          rw [haa, hfa] at hla'
          exact Option.noConfusion hla'
        · rw [if_neg haa]
          exact hla'
  · intro r' hr'
    have hr2 : max h.nextRef (r + 1) ≤ r' := hr'
    have h1 : h.nextRef ≤ r' := le_trans (le_max_left _ _) hr2
    have h2 : r + 1 ≤ r' := le_trans (le_max_right _ _) hr2
    have hrr : r' ≠ r := by omega
    show (if r' = r then some q else h.heap r') = none
    rw [if_neg hrr]
    exact i3 r' h1

/-- A `Link` whose object reference, address, and id are all fresh
preserves the invariant. -/
theorem inv_link {h : Homebrew} (hi : Inv h) (env : Env) (r : Nat)
    (p : Peer) (hfr : h.heap r = none)
    (hfa : ∀ a, p.Addr = some a → lookup h.Peer a = none)
    (hfi : lookup h.PeerID p.ID = none) :
    Inv (link env h r p).1 := by
  unfold link
  split
  · exact hi
  · next a ha =>
      by_cases hk : p.AuthKey = []
      · rw [if_pos hk]
        exact hi
      · rw [if_neg hk]
        dsimp only
        have hreg := inv_register h r a
          { p with Last := { p.Last with PacketSent := 0, PacketReceived := 0,
                                         PingSent := 0, PongReceived := 0 },
                   idb := packRepeaterID p.ID }
          hi hfr ha (hfa a ha) hfi
        by_cases hin : p.Incoming = true
        · rw [if_pos hin]
          exact hreg
        · rw [if_neg hin]
          exact inv_of_heapShape (heapShape_handleAuth env _ r) hreg

/-- The incoming-role authentication switch preserves the invariant. -/
theorem inv_handleIncomingAuth {h : Homebrew} (hi : Inv h) (env : Env)
    (r : Nat) (peer : Peer) (buffer : List Nat) (n : Nat)
    (hp : h.heap r = some peer) :
    Inv (handleIncomingAuth env h r peer buffer n) := by
  unfold handleIncomingAuth
  dsimp only
  split
  · split
    · exact inv_of_heapShape
        (heapShape_trans
          (heapShape_setPeer h r peer
            { peer with Token := env.updTok peer.AuthKey env.nonce,
                        Status := AuthBegin } hp rfl rfl)
          (heapShape_WriteToPeer env _ r _)) hi
    · exact hi
  · split
    · split
      · exact inv_of_heapShape
          (heapShape_trans
            (heapShape_setPeer h r peer { peer with Status := AuthNone }
              hp rfl rfl)
            (heapShape_WriteToPeer env _ r _)) hi
      · split
        · exact inv_of_heapShape
            (heapShape_trans
              (heapShape_setPeer h r peer { peer with Status := AuthNone }
                hp rfl rfl)
              (heapShape_WriteToPeer env _ r _)) hi
        · exact inv_of_heapShape
            (heapShape_trans
              (heapShape_setPeer h r peer
                { peer with Status := AuthDone,
                            Last := { peer.Last with PingReceived := env.now,
                                                     PongReceived := env.now } } hp rfl rfl)
              (heapShape_WriteToPeer env _ r _)) hi
    · exact hi
  · exact hi

/-- The outgoing-role authentication switch preserves the invariant
whenever it does not panic. -/
theorem inv_handleOutgoingAuth {h : Homebrew} (hi : Inv h) (env : Env)
    (r : Nat) (peer : Peer) (buffer : List Nat) (n : Nat)
    (hp : h.heap r = some peer) (h' : Homebrew)
    (he : handleOutgoingAuth env h r peer buffer n = some h') : Inv h' := by
  unfold handleOutgoingAuth at he
  dsimp only at he
  split at he
  · split at he
    · obtain rfl := Option.some.inj he
      exact inv_of_heapShape
        (heapShape_trans
          (heapShape_setPeer h r peer
            { peer with Status := AuthBegin,
                        Token := env.updTok peer.AuthKey
                          ((buffer.drop 6).take 4) } hp rfl rfl)
          (heapShape_handleAuth env _ r)) hi
    · split at he
      · split at he
        · rw [Option.map_eq_some'] at he
          obtain ⟨⟨h2, b2⟩, hu, hx⟩ := he
          obtain rfl : h2 = h' := hx
          exact inv_unlink
            (inv_of_heapShape (heapShape_setPeer h r peer
              { peer with Status := AuthFailed } hp rfl rfl) hi)
            peer.ID _ b2 hu
        · obtain rfl := Option.some.inj he
          exact inv_of_heapShape (heapShape_setPeer h r peer
            { peer with Status := AuthFailed } hp rfl rfl) hi
      · obtain rfl := Option.some.inj he
        exact hi
  · split at he
    · obtain rfl := Option.some.inj he
      exact inv_of_heapShape
        (heapShape_trans
          (heapShape_trans
            (heapShape_setPeer h r peer
              { peer with Status := AuthDone,
                          Last := { peer.Last with PingSent := env.now,
                                                   PongReceived := env.now } } hp rfl rfl)
            (heapShape_Config _ _))
          (heapShape_WriteToPeer env _ r _)) hi
    · split at he
      · split at he
        · rw [Option.map_eq_some'] at he
          obtain ⟨⟨h2, b2⟩, hu, hx⟩ := he
          obtain rfl : h2 = h' := hx
          exact inv_unlink
            (inv_of_heapShape (heapShape_setPeer h r peer
              { peer with Status := AuthFailed } hp rfl rfl) hi)
            peer.ID _ b2 hu
        · obtain rfl := Option.some.inj he
          exact inv_of_heapShape (heapShape_setPeer h r peer
            { peer with Status := AuthFailed } hp rfl rfl) hi
      · split at he
        · obtain rfl := Option.some.inj he
          exact inv_of_heapShape
            (heapShape_trans
              (heapShape_trans
                (heapShape_setPeer h r peer
                  { peer with Status := AuthDone,
                              Last := { peer.Last with PingSent := env.now,
                                                       PongReceived := env.now } } hp rfl rfl)
                (heapShape_Config _ _))
              (heapShape_WriteToPeer env _ r _)) hi
        · obtain rfl := Option.some.inj he
          exact hi
  · obtain rfl := Option.some.inj he
    exact hi

/-- The authenticated incoming-role switch preserves the invariant. -/
theorem inv_handleDoneIncoming {h : Homebrew} (hi : Inv h) (env : Env)
    (r : Nat) (peer : Peer) (buffer : List Nat) (n : Nat)
    (hp : h.heap r = some peer) :
    Inv (handleDoneIncoming env h r peer buffer n) := by
  unfold handleDoneIncoming
  dsimp only
  split
  · split
    · exact hi
    · exact inv_of_heapShape (heapShape_handlePacket _ _ _ _) hi
  · split
    · exact hi
    · split
      · exact inv_of_heapShape
          (heapShape_trans
            (heapShape_setPeer h r peer
              { peer with Last := { peer.Last with PingReceived := env.now } }
              hp rfl rfl)
            (heapShape_WriteToPeer env _ r _)) hi
      · split
        · exact inv_of_heapShape
            (heapShape_trans
              (heapShape_setPeer h r peer
                { peer with Last := { peer.Last with PingReceived := env.now } }
                hp rfl rfl)
              (heapShape_WriteToPeer env _ r _)) hi
        · split
          · exact inv_of_heapShape
              (heapShape_trans
                (heapShape_setPeer h r peer
                  { peer with Config := env.parseCfg (buffer.take n) }
                  hp rfl rfl)
                (heapShape_WriteToPeer env _ r _)) hi
          · exact hi

/-- The authenticated outgoing-role switch preserves the invariant. -/
theorem inv_handleDoneOutgoing {h : Homebrew} (hi : Inv h) (env : Env)
    (r : Nat) (peer : Peer) (buffer : List Nat) (n : Nat)
    (hp : h.heap r = some peer) :
    Inv (handleDoneOutgoing env h r peer buffer n) := by
  unfold handleDoneOutgoing
  dsimp only
  split
  · split
    · exact hi
    · exact inv_of_heapShape (heapShape_handlePacket _ _ _ _) hi
  · split
    · split
      · exact inv_of_heapShape
          (heapShape_trans
            (heapShape_setPeer h r peer
              { peer with Last := { peer.Last with PingSent := env.now } }
              hp rfl rfl)
            (heapShape_WriteToPeer env _ r _)) hi
      · exact hi
    · split
      · split
        · exact inv_of_heapShape
            (heapShape_trans
              (heapShape_setPeer h r peer
                { peer with Status := AuthFailed } hp rfl rfl)
              (heapShape_handleAuth env _ r)) hi
        · exact hi
      · split
        · split
          · exact inv_of_heapShape
              (heapShape_trans
                (heapShape_setPeer h r peer
                  { peer with Last := { peer.Last with PingSent := env.now } }
                  hp rfl rfl)
                (heapShape_WriteToPeer env _ r _)) hi
          · exact hi
        · split
          · split
            · exact inv_of_heapShape
                (heapShape_setPeer h r peer
                  { peer with Last := { peer.Last with PongReceived := env.now } }
                  hp rfl rfl) hi
            · exact hi
          · split
            · split
              · exact inv_of_heapShape
                  (heapShape_setPeer h r peer
                    { peer with Last := { peer.Last with PongReceived := env.now } }
                    hp rfl rfl) hi
              · exact hi
            · exact hi

/-- The resolved-peer body of `handle` preserves the invariant whenever
it does not panic. -/
theorem inv_handleKnown {h : Homebrew} (hi : Inv h) (env : Env) (r : Nat)
    (buffer : List Nat) (n : Nat) (h' : Homebrew)
    (he : handleKnown env h r buffer n = some h') : Inv h' := by
  unfold handleKnown at he
  split at he
  · obtain rfl := Option.some.inj he
    exact hi
  · split at he
    · exact Option.noConfusion he
    · next peer heq =>
        dsimp only at he
        have hi1 : Inv (setPeer h r { peer with Last :=
            { peer.Last with PacketReceived := env.now } }) :=
          inv_of_heapShape (heapShape_setPeer h r peer
            { peer with Last := { peer.Last with PacketReceived := env.now } }
            heq rfl rfl) hi
        have hp1 : (setPeer h r { peer with Last :=
            { peer.Last with PacketReceived := env.now } }).heap r =
            some { peer with Last :=
              { peer.Last with PacketReceived := env.now } } := by
          simp [setPeer]
        split at he
        · split at he
          · obtain rfl := Option.some.inj he
            exact hi1
          · split at he
            · obtain rfl := Option.some.inj he
              exact inv_handleIncomingAuth hi1 env r _ buffer n hp1
            · exact inv_handleOutgoingAuth hi1 env r _ buffer n hp1 h' he
        · split at he
          · obtain rfl := Option.some.inj he
            exact inv_handleDoneIncoming hi1 env r _ buffer n hp1
          · obtain rfl := Option.some.inj he
            exact inv_handleDoneOutgoing hi1 env r _ buffer n hp1

/-- One received datagram preserves the invariant whenever it does not
panic, provided an implicitly created peer would carry a fresh id. -/
theorem inv_handle {h : Homebrew} (hi : Inv h) (env : Env) (remote : Nat)
    (buffer : List Nat) (n : Nat)
    (hok : ∀ i, lookup h.Peer remote = none →
      unpackRepeaterID ((buffer.drop 4).take (n - 4)) = some i →
      lookup h.PeerID i = none)
    (h' : Homebrew) (he : handle env h remote buffer n = some h') :
    Inv h' := by
  unfold handle at he
  split at he
  · exact inv_handleKnown hi env _ buffer n h' he
  · next hl =>
      split at he
      · split at he
        · exact Option.noConfusion he
        · split at he
          · exact Option.noConfusion he
          · next rid hrid =>
              dsimp only at he
              have hInv1 : Inv (link env h h.nextRef
                  (newRPTLPeer rid remote)).1 := by
                refine inv_link hi env h.nextRef (newRPTLPeer rid remote)
                  (hi.2.2 h.nextRef (le_refl _)) ?_ (hok rid hl hrid)
                intro a haeq
                have hra : remote = a := by
                  simpa [newRPTLPeer] using haeq
                subst hra
                exact hl
              split at he
              · exact inv_handleKnown hInv1 env _ buffer n h' he
              · obtain rfl := Option.some.inj he
                exact hInv1
      · obtain rfl := Option.some.inj he
        exact hi

/-- One operation preserves the invariant, given its freshness side
condition. -/
theorem inv_stepOp {h : Homebrew} (hi : Inv h) (op : Op) (hok : OkOp h op)
    (h' : Homebrew) (he : stepOp h op = some h') : Inv h' := by
  cases op with
  | opLink env r p =>
      obtain ⟨hfr, hfa, hfi⟩ := hok
      obtain rfl := Option.some.inj he
      exact inv_link hi env r p hfr hfa hfi
  | opUnlink i =>
      have he2 : (unlink h i).map (fun x => x.1) = some h' := he
      rw [Option.map_eq_some'] at he2
      obtain ⟨⟨h2, b2⟩, hu, hx⟩ := he2
      obtain rfl : h2 = h' := hx
      exact inv_unlink hi i _ b2 hu
  | opDatagram env remote buffer n =>
      exact inv_handle hi env remote buffer n hok h' he

/-- A whole operation sequence preserves the invariant. -/
theorem inv_runOk {h h' : Homebrew} {ops : List Op}
    (hr : RunOk h ops h') : Inv h → Inv h' := by
  induction hr with
  | nil h1 => exact fun hi => hi
  | cons h1 h2 h3 op ops hok hstep hrun ih =>
      exact fun hi => ih (inv_stepOp hi op hok h2 hstep)

/-- Counterexample to claim C7 as stated: `Link(peerIncoming0)` (id 1,
address 5) followed by `Link(peerDupId0)` (the same id 1 at address 6)
leaves object reference 0 reachable through the address index while no
id-index entry yields it — the second insert overwrote id key 1 in
`PeerID` but left address key 5 in `Peer`, so the two indexes are not
kept in bijection by arbitrary operation sequences. -/
theorem C7_registry_bijection_counterexample :
    lookup ((link env0 (link env0 (newHomebrew cfg0) 0 peerIncoming0).1
      1 peerDupId0).1).Peer 5 = some 0 ∧
    ∀ i, lookup ((link env0 (link env0 (newHomebrew cfg0) 0 peerIncoming0).1
      1 peerDupId0).1).PeerID i ≠ some 0 := by
  constructor
  · decide
  · intro i hcontra
    have hP : ((link env0 (link env0 (newHomebrew cfg0) 0 peerIncoming0).1
        1 peerDupId0).1).PeerID = [(1, 1)] := by decide
    rw [hP] at hcontra
    by_cases hi1 : i = 1
    · subst hi1
      exact absurd hcontra (by decide)
    · have hbe : ((1 : Nat) == i) = false :=
        beq_eq_false_iff_ne.mpr (Ne.symm hi1)
      simp [lookup, List.find?_cons, hbe] at hcontra

/-- C7 (amended): provided every `Link` — explicit, or implicit via an
`RPTL` from an unknown address — uses an unused object reference and an
address and id not registered to another peer, every sequence of `Link`,
`Unlink`, and datagram-handling operations started from a coherent state
keeps the two registries naming the same set of peer objects: a
reference is reachable through the address index iff it is reachable
through the id index. -/
theorem C7_registry_bijection_amended (h h' : Homebrew) (ops : List Op)
    (hi : Inv h) (hr : RunOk h ops h') :
    ∀ r : Nat, (∃ a, lookup h'.Peer a = some r) ↔
      (∃ i, lookup h'.PeerID i = some r) := by
  have hinv : Inv h' := inv_runOk hr hi
  intro r
  constructor
  · rintro ⟨a, ha⟩
    obtain ⟨p, -, -, hid⟩ := hinv.1 a r ha
    exact ⟨p.ID, hid⟩
  · rintro ⟨i, hil⟩
    obtain ⟨p, -, -, a, -, hla⟩ := hinv.2.1 i r hil
    exact ⟨a, hla⟩

/-- Witness for C7 (amended) on the concrete run that links
`peerIncoming0` into a fresh endpoint. -/
theorem C7_registry_bijection_amended_witness :
    (∃ a, lookup ((link env0 (newHomebrew cfg0) 0
      peerIncoming0).1).Peer a = some 0) ↔
    (∃ i, lookup ((link env0 (newHomebrew cfg0) 0
      peerIncoming0).1).PeerID i = some 0) :=
  C7_registry_bijection_amended (newHomebrew cfg0)
    ((link env0 (newHomebrew cfg0) 0 peerIncoming0).1)
    [Op.opLink env0 0 peerIncoming0]
    ⟨fun _ _ hc => Option.noConfusion hc,
     fun _ _ hc => Option.noConfusion hc,
     fun _ _ => rfl⟩
    (RunOk.cons _ _ _ _ _ ⟨rfl, fun _ _ => rfl, rfl⟩ rfl (RunOk.nil _))
    0

end RegistryTheorems
